import Mathlib

/-!
Verification development for the component-tag alignment checker.

The repository consists of `check_component_tags.py` (manifest parsing,
path resolution, the version probe `check_component_tag` with its
tag-integrity helper `check_tag_reuse`) and
`check_component_tags_gui.py` (the reconciliation batch loops
`update_selected_components` and `revert_selected_changes`).

The shallow embedding below renders each routine as a pure Lean
function.  External effects (file system, `git` subprocesses) are
modelled by a state record whose fields are the answers the outside
world gives to the exact queries the Python code makes; exceptions that
escape a routine are modelled with `Except`.
-/

/-- One declared dependency, as extracted by `parse_cmake_file`:
the dictionary with keys `module_name`, `project_key`, `path`, `tag`. -/
structure Component where
  module_name : String
  project_key : String
  path : String
  tag : String
deriving Repr, DecidableEq

/-- The placeholder token that `resolve_path` substitutes. -/
def cmakeListDirToken : String := "$\x7bCMAKE_CURRENT_LIST_DIR\x7d"

/-- Fuel-driven model of Python `str.replace`: replace every
non-overlapping occurrence of `pat` left to right.  The fuel is the
input length, enough for the scan to finish, and keeps the recursion
structural so that concrete inputs evaluate by `decide`/`rfl`. -/
def replaceFuel (pat rep : List Char) : Nat → List Char → List Char
  | 0, s => s
  | _, [] => []
  | fuel + 1, c :: rest =>
    if pat ≠ [] ∧ pat.isPrefixOf (c :: rest) then
      rep ++ replaceFuel pat rep fuel ((c :: rest).drop pat.length)
    else
      c :: replaceFuel pat rep fuel rest

/-- `resolve_path(path, cmake_file_dir)`: literal substitution of
`cmakeListDirToken` by the manifest directory; no other placeholder is
resolved. -/
def resolve_path (path cmake_file_dir : String) : String :=
  String.mk (replaceFuel cmakeListDirToken.data cmake_file_dir.data
    path.data.length path.data)

/-- Answers of the `git` subprocess calls made by `check_tag_reuse`,
for the one tag it inspects:
* `timedOut`: some call raised `TimeoutExpired` (each call runs with a
  one second timeout);
* `catFileOk` / `catFileErr`: return code and stderr of
  `git cat-file -p <tag>`;
* `hasTaggerLine`: the cat-file output contains `tagger `;
* `taggerDate` / `objectHash`: results of the two regex searches over
  that output (`none` when the regex does not match);
* `commitDate`: outcome of `git show -s --format=%at <hash>` — `none`
  when the call returns nonzero, `some none` when its stdout is not an
  integer (the `int` conversion raises), `some (some n)` otherwise;
* `showVersion`: stdout of `git show <tag>:VERSION` when that call
  returns zero, `none` otherwise. -/
structure TagMeta where
  timedOut : Bool
  catFileOk : Bool
  catFileErr : String
  hasTaggerLine : Bool
  taggerDate : Option Nat
  objectHash : Option String
  commitDate : Option (Option Nat)
  showVersion : Option String
deriving Repr, DecidableEq

/-- The whitespace characters Python `str.strip()` removes. -/
def isPySpace (c : Char) : Bool :=
  c = ' ' || c = '\t' || c = '\n' || c = '\r' || c = '\x0b' || c = '\x0c'

/-- Model of Python `str.strip()`: drop leading and trailing
whitespace. -/
def pyStrip (s : String) : String :=
  String.mk (((s.data.dropWhile isPySpace).reverse.dropWhile isPySpace).reverse)

/-- The lightweight-tag fallback inside `check_tag_reuse`: compare the
`VERSION` file stored at the tag (when `git show <tag>:VERSION`
succeeds) against the tag name; inconclusive data passes. -/
def reuseFallback (m : TagMeta) (tag_name : String) : Bool × Option String :=
  match m.showVersion with
  | some v =>
    if pyStrip v ≠ tag_name then
      (false, some "VERSION file content doesn't match tag name")
    else (true, none)
  | none => (true, none)

/-- `check_tag_reuse(repo_path, tag_name)`: returns
`(is_integrity_ok, error_message)`.  Mirrors the source control flow:
inspect the tag; for an annotated tag with parseable tagger date and
object hash, compare the tagger date with the target commit's date and
flag reuse when the tag predates its commit; otherwise fall through to
`reuseFallback`.  Timeouts and stray exceptions degrade to
`(false, message)`. -/
def check_tag_reuse (m : TagMeta) (tag_name : String) : Bool × Option String :=
  if m.timedOut then
    (false, some "Git command timed out")
  else if !m.catFileOk then
    (false, some ("Failed to inspect tag: " ++ m.catFileErr))
  else
    let fallback : Bool × Option String := reuseFallback m tag_name
    if m.hasTaggerLine then
      match m.taggerDate, m.objectHash with
      | some tag_date, some _commit_hash =>
        match m.commitDate with
        | some (some commit_date) =>
          if tag_date < commit_date then
            (false, some ("Tag " ++ tag_name ++
              " appears to have been reused (created before its commit)"))
          else fallback
        | some none =>
          (false, some "Error checking tag: invalid literal for int")
        | none => fallback
      | _, _ => fallback
    else fallback

/-- Answers of the file-system and subprocess queries made by
`check_component_tag` for one component:
* `pathExists`: `os.path.exists(resolved_path)`;
* `gitMethodRaises`: an exception inside the method-1 `try` block
  before any `return` (e.g. `os.chdir` failing) — the handler swallows
  it and the probe falls through to method 2;
* `isGitRepo`: `git rev-parse --is-inside-work-tree` returned zero;
* `describeExact`: stripped stdout of
  `git describe --tags --exact-match` when it returns zero, else `none`;
* `tagCommit` / `headCommit`: stripped stdout of
  `git rev-list -n 1 <tag>` and `git rev-parse HEAD`;
* `statusPorcelain`: stripped stdout of `git status --porcelain`;
* `revListCount`: stripped stdout of
  `git rev-list --count <tag>..HEAD` when it returns zero, else `none`;
* `tagMeta`: the answers consumed by `check_tag_reuse`;
* `versionFile`: `none` when no `VERSION` file exists, `some none` when
  it exists but opening or reading it raises, `some (some s)` when its
  raw content is `s`;
* `versionMtimeRecent`: `none` when `os.path.getmtime` or `time.time`
  raises, else whether the file was modified within the last hour;
* `manifestVersion`: `none` when no `manifest.json` exists, `some none`
  when reading or JSON-decoding it raises or it has no `version` field,
  `some (some v)` when the field is present. -/
structure ComponentState where
  pathExists : Bool
  gitMethodRaises : Bool
  isGitRepo : Bool
  describeExact : Option String
  tagCommit : String
  headCommit : String
  statusPorcelain : String
  revListCount : Option String
  tagMeta : TagMeta
  versionFile : Option (Option String)
  versionMtimeRecent : Option Bool
  manifestVersion : Option (Option String)
deriving Repr, DecidableEq

/-- The tuple `(is_aligned, actual_tag, expected_tag, error_message,
path_exists)` returned by `check_component_tag`. -/
structure CheckResult where
  is_aligned : Bool
  actual_tag : Option String
  expected_tag : String
  error_message : Option String
  path_exists : Bool
deriving Repr, DecidableEq

/-- Method 1 of `check_component_tag`: the git detection strategy.
`none` means the strategy produced no `return` (not a repository, no
exact-match tag, or an exception swallowed by the handler) and the
probe falls through to the `VERSION`-file strategy. -/
def gitMethod (expected_tag : String) (st : ComponentState) :
    Option CheckResult :=
  if st.gitMethodRaises then none
  else if st.isGitRepo then
    match st.describeExact with
    | some actual_tag =>
      let tag_commit := st.tagCommit
      let head_commit := st.headCommit
      let uncommitted_changes := st.statusPorcelain ≠ ""
      if actual_tag ≠ expected_tag then
        some ⟨false, some actual_tag, expected_tag,
          some ("Tag mismatch: expected " ++ expected_tag ++ ", got " ++
            actual_tag), true⟩
      else
        let integrity := check_tag_reuse st.tagMeta actual_tag
        if !integrity.1 then
          some ⟨false, some actual_tag, expected_tag, integrity.2, true⟩
        else if tag_commit ≠ head_commit then
          let commit_count := st.revListCount.getD "unknown number of"
          some ⟨false, some actual_tag, expected_tag,
            some ("Tag is correct but there are " ++ commit_count ++
              " commits after the tag"), true⟩
        else if uncommitted_changes then
          some ⟨false, some actual_tag, expected_tag,
            some "Tag is correct but there are uncommitted changes", true⟩
        else
          some ⟨true, some actual_tag, expected_tag, none, true⟩
    | none => none
  else none

/-- `check_component_tag(component, cmake_file_dir)`.  The `Except`
layer records the one way an exception escapes the function: method 2
opens and reads the `VERSION` file outside every `try` block, so an
unreadable `VERSION` file propagates to the caller; every other
failure degrades to a returned tuple. -/
def check_component_tag (component : Component) (cmake_file_dir : String)
    (st : ComponentState) : Except String CheckResult :=
  let module_name := component.module_name
  let expected_tag := component.tag
  let resolved_path := resolve_path component.path cmake_file_dir
  if !st.pathExists then
    .ok ⟨false, none, expected_tag,
      some ("Path does not exist: " ++ resolved_path), false⟩
  else
    match gitMethod expected_tag st with
    | some r => .ok r
    | none =>
      -- Method 2: VERSION marker file (read is not guarded by a try).
      match st.versionFile with
      | some none =>
        .error ("unhandled exception reading " ++ resolved_path ++ "/VERSION")
      | some (some content) =>
        let actual_tag := pyStrip content
        if actual_tag == expected_tag then
          match st.versionMtimeRecent with
          | some true =>
            .ok ⟨false, some actual_tag, expected_tag,
              some "VERSION file was recently modified, possible tag reuse",
              true⟩
          | _ => .ok ⟨true, some actual_tag, expected_tag, none, true⟩
        else
          .ok ⟨false, some actual_tag, expected_tag,
            some ("Tag mismatch: expected " ++ expected_tag ++ ", got " ++
              actual_tag), true⟩
      | none =>
        -- Method 3: manifest.json (fully guarded by a try).
        match st.manifestVersion with
        | some (some actual_tag) =>
          if actual_tag == expected_tag then
            .ok ⟨true, some actual_tag, expected_tag, none, true⟩
          else
            .ok ⟨false, some actual_tag, expected_tag,
              some ("Tag mismatch: expected " ++ expected_tag ++ ", got " ++
                actual_tag), true⟩
        | _ =>
          .ok ⟨false, none, expected_tag,
            some ("Could not determine the actual tag for " ++ module_name ++
              " at " ++ resolved_path), true⟩

/-!
Embedding of `parse_cmake_file`.  The Python routine runs two regex
passes over the manifest text.  Pass (a) finds every
`set(MODULES_<target> ...)` section, skips a section whose content
starts with a `MODULES` variable reference, and walks its lines:
comment/blank lines and lines containing a `MODULES` variable
reference are skipped, the quoted strings of the other lines
accumulate, and each time the accumulator reaches four strings a
record (module, key, path, tag) is emitted and the accumulator resets.
Pass (b) finds the standalone one-record append declarations whose
second quoted literal is a `MODULES` self-reference and appends each
to its (possibly new) target group.  The structures below carry the
match data those two passes extract from the text.
-/

/-- One physical line of a section's content, as the pass-(a) loop
classifies it: `isCommentOrEmpty` is
`line.strip().startswith('#') or not line.strip()`, `hasModulesVarRef`
is whether the `MODULES` variable-reference marker occurs in the line,
and `quotes` are the double-quoted substrings found on the line. -/
structure CmakeLine where
  isCommentOrEmpty : Bool
  hasModulesVarRef : Bool
  quotes : List String
deriving Repr, DecidableEq

/-- One pass-(a) regex match: the target name, whether the section
content starts with a `MODULES` variable reference (such a section is
skipped whole), and its content lines. -/
structure CmakeSection where
  target : String
  startsWithVarRef : Bool
  lines : List CmakeLine
deriving Repr, DecidableEq

/-- One pass-(b) regex match: a single-record append declaration for a
target group. -/
structure AppendDecl where
  target : String
  module_name : String
  project_key : String
  path : String
  tag : String
deriving Repr, DecidableEq

/-- The match data of the two regex passes over one manifest text, in
file order. -/
structure CmakeFile where
  sections : List CmakeSection
  appends : List AppendDecl
deriving Repr, DecidableEq

/-- A line takes part in record extraction iff it is neither a
comment/blank line nor a `MODULES` variable-reference line. -/
def lineEffective (l : CmakeLine) : Bool :=
  !l.isCommentOrEmpty && !l.hasModulesVarRef

/-- Build a record from the first four accumulated quoted strings
(`current_component[0] .. [3]`; the Python list always has at least
four elements at this point). -/
def mkComponent : List String → Component
  | m :: k :: p :: t :: _ => ⟨m, k, p, t⟩
  | _ => ⟨"", "", "", ""⟩

/-- The pass-(a) line loop: skip ineffective lines, extend the
accumulator with the line's quoted strings, and emit a record whenever
the accumulator holds at least four strings, resetting it to empty
(strings beyond the first four are discarded with it). -/
def processLines : List CmakeLine → List String → List Component
  | [], _ => []
  | l :: ls, cur =>
    if lineEffective l then
      let cur' := cur ++ l.quotes
      if 4 ≤ cur'.length then
        mkComponent cur' :: processLines ls []
      else
        processLines ls cur'
    else
      processLines ls cur

/-- The records pass (a) extracts from one section (empty for a
skipped section). -/
def sectionRecords (s : CmakeSection) : List Component :=
  if s.startsWithVarRef then [] else processLines s.lines []

/-- Python dict assignment `d[target] = components` on an
insertion-ordered association list: overwrite in place when the key is
present, append otherwise. -/
def setGroup (gs : List (String × List Component)) (t : String)
    (cs : List Component) : List (String × List Component) :=
  match gs with
  | [] => [(t, cs)]
  | (k, v) :: rest =>
    if k = t then (k, cs) :: rest else (k, v) :: setGroup rest t cs

/-- Pass (b)'s per-match update: append one record to an existing
group, or create the group with just that record. -/
def appendToGroup (gs : List (String × List Component)) (t : String)
    (c : Component) : List (String × List Component) :=
  match gs with
  | [] => [(t, [c])]
  | (k, v) :: rest =>
    if k = t then (k, v ++ [c]) :: rest else (k, v) :: appendToGroup rest t c

/-- The record carried by one pass-(b) append declaration. -/
def appendRecord (a : AppendDecl) : Component :=
  ⟨a.module_name, a.project_key, a.path, a.tag⟩

/-- One iteration of the pass-(a) loop: skip a self-reference section,
extract the section's records, and store them under the target when
any were found. -/
def passAStep (gs : List (String × List Component)) (s : CmakeSection) :
    List (String × List Component) :=
  if s.startsWithVarRef then gs
  else
    let comps := processLines s.lines []
    if comps = [] then gs else setGroup gs s.target comps

/-- Pass (a) of `parse_cmake_file`: extract each section's records and
store the non-empty lists under the section's target. -/
def parsePassA (sections : List CmakeSection) :
    List (String × List Component) :=
  sections.foldl passAStep []

/-- One iteration of the pass-(b) loop. -/
def passBStep (gs : List (String × List Component)) (a : AppendDecl) :
    List (String × List Component) :=
  appendToGroup gs a.target (appendRecord a)

/-- `parse_cmake_file`: pass (a) over the sections, then pass (b) over
the append declarations. -/
def parse_cmake_file (f : CmakeFile) : List (String × List Component) :=
  f.appends.foldl passBStep (parsePassA f.sections)

/-- Python dict lookup on the insertion-ordered association list. -/
def lookupGroup (gs : List (String × List Component)) (t : String) :
    Option (List Component) :=
  match gs with
  | [] => none
  | (k, v) :: rest => if k = t then some v else lookupGroup rest t

/-- Number of quoted-literal-groups-of-four found in a pattern-(a)
block declaration: total quoted strings on effective lines, in runs of
four (a section that is itself a variable self-reference is not a
pattern-(a) block and counts nothing). -/
def groupsOfFour (s : CmakeSection) : Nat :=
  if s.startsWithVarRef then 0
  else ((s.lines.filter lineEffective).map (fun l => l.quotes.length)).sum / 4

/-- The pass-(b) append declarations for a target, in file order. -/
def appendsFor (f : CmakeFile) (t : String) : List AppendDecl :=
  f.appends.filter (fun a => a.target = t)

/-- The records pass (a) contributes to target `t`: those of the
unique pattern-(a) block (non-skipped section) named `t`, or none. -/
def aRecords (f : CmakeFile) (t : String) : List Component :=
  match (f.sections.filter (fun s => !s.startsWithVarRef)).find?
      (fun s => s.target = t) with
  | some s => sectionRecords s
  | none => []

/-- The records pass (b) contributes to target `t`, in order. -/
def bRecords (f : CmakeFile) (t : String) : List Component :=
  (appendsFor f t).map appendRecord

/-- A manifest is valid for the counting property when its pattern-(a)
blocks (the pass-(a) matches that are not skipped as variable
self-references — every pattern-(b) append line is also a pass-(a)
match, but a skipped one) have pairwise distinct targets, and in every
such block every effective line carries exactly four quoted strings
(the record layout the manifest format prescribes). -/
def validCmake (f : CmakeFile) : Prop :=
  ((f.sections.filter (fun s => !s.startsWithVarRef)).map
    CmakeSection.target).Nodup ∧
  ∀ s ∈ f.sections, ¬s.startsWithVarRef →
    ∀ l ∈ s.lines, lineEffective l → l.quotes.length = 4

/-!
Embedding of the reconciliation batch loops of
`check_component_tags_gui.py`.  Each loop iterates over the selected
components, runs one component's action inside a per-component `try`,
tallies the outcome, and continues with the next component.  A
component's behaviour is modelled by a record of the answers the
environment gives to that component's own queries, so the per-component
outcome is a function of the component alone.
-/

/-- Behaviour of the environment for one component of an
`update_selected_components` batch:
* `path_exists`: the component's path exists (so the retag branch runs
  instead of the clone branch);
* `tagNonempty`: the component dictionary carries a truthy `tag` or
  `expected_tag` entry (checked before cloning);
* `cloneCall`: `none` when an exception is raised while preparing or
  running `clone_component`, otherwise its `(success, message)` result;
* `chdirRaises`: `os.chdir(resolved_path)` raises;
* `versionWriteRaises`: opening or writing the `VERSION` file raises;
* `isGitRepo`: `git rev-parse --is-inside-work-tree` returns zero;
* `gitOpsRaise`: an exception in the inner git block before the tag
  verification (the status/add/commit/tag calls);
* `tagVerifyOk`: the declared tag occurs in the stdout of
  `git tag -l <tag>` after recreation;
* `chdirBackRaises`: `os.chdir(original_dir)` raises. -/
structure UpdComponent where
  module_name : String
  path_exists : Bool
  tagNonempty : Bool
  cloneCall : Option (Bool × String)
  chdirRaises : Bool
  versionWriteRaises : Bool
  isGitRepo : Bool
  gitOpsRaise : Bool
  tagVerifyOk : Bool
  chdirBackRaises : Bool
deriving Repr, DecidableEq

/-- The tally bucket a component ends in: `cloned_count`,
`updated_count` or `failed_count`. -/
inductive UpdOutcome
  | cloned
  | updated
  | failed
deriving Repr, DecidableEq

/-- Observable effect of processing one component in the update loop:
its tally bucket, whether the `VERSION` marker file was written (and
left in place — nothing ever deletes it), and whether the inner git
`try` ended in the warning handler (`Warning: Git operation failed`). -/
structure UpdEffect where
  outcome : UpdOutcome
  versionWritten : Bool
  gitWarning : Bool
deriving Repr, DecidableEq

/-- One iteration of the `update_selected_components` loop.  Missing
path: determine the tag, clone, and tally `cloned`/`failed`; any
exception in that block is caught and tallied `failed`.  Existing
path: write the `VERSION` file, then run the git retag block whose own
`try` swallows every git failure — including the raise after a failed
tag verification — as a warning, and tally `updated`; only an
exception outside the inner `try` (chdir, the write, chdir back)
reaches the outer handler and tallies `failed`. -/
def processUpdateComponent (c : UpdComponent) : UpdEffect :=
  if !c.path_exists then
    if !c.tagNonempty then ⟨.failed, false, false⟩
    else
      match c.cloneCall with
      | none => ⟨.failed, false, false⟩
      | some (true, _) => ⟨.cloned, false, false⟩
      | some (false, _) => ⟨.failed, false, false⟩
  else if c.chdirRaises then ⟨.failed, false, false⟩
  else if c.versionWriteRaises then ⟨.failed, false, false⟩
  else
    let warned := c.gitOpsRaise || (c.isGitRepo && !c.tagVerifyOk)
    if c.chdirBackRaises then ⟨.failed, true, warned⟩
    else ⟨.updated, true, warned⟩

/-- The counters `updated_count`, `cloned_count`, `failed_count`. -/
structure UpdTally where
  updated : Nat
  cloned : Nat
  failed : Nat
deriving Repr, DecidableEq

/-- Add one component's effect to the tally. -/
def updStep (t : UpdTally) (e : UpdEffect) : UpdTally :=
  match e.outcome with
  | .updated => { t with updated := t.updated + 1 }
  | .cloned => { t with cloned := t.cloned + 1 }
  | .failed => { t with failed := t.failed + 1 }

/-- One iteration of the update loop: process the component, count its
outcome, record its effect. -/
def updBatchStep (acc : UpdTally × List UpdEffect) (c : UpdComponent) :
    UpdTally × List UpdEffect :=
  let e := processUpdateComponent c
  (updStep acc.1 e, acc.2 ++ [e])

/-- The whole `update_selected_components` loop over the selected
components: final counters plus the per-component effects in batch
order. -/
def runUpdateBatch (cs : List UpdComponent) : UpdTally × List UpdEffect :=
  cs.foldl updBatchStep (⟨0, 0, 0⟩, [])

/-- Behaviour of the environment for one component of a
`revert_selected_changes` batch:
* `change_location`: the component's recorded change location (the
  empty string is Python-falsy and is tallied as a failure without an
  exception);
* `chdirRaises`: `os.chdir(change_location)` raises;
* `isGitRepo`: `git rev-parse --is-inside-work-tree` returns zero (a
  non-repository raises `Not a git repository`);
* `checkoutFails`: `git checkout --force .` returns nonzero (raises);
* `untrackedFiles` / `userConfirmsClean` / `cleanSucceeds`: the
  untracked-file enumeration, the caller's confirmation dialog, and the
  `git clean -fd` result — these only shape the log messages, never the
  tally;
* `chdirBackRaises`: `os.chdir(original_dir)` raises. -/
structure RevComponent where
  module_name : String
  change_location : String
  chdirRaises : Bool
  isGitRepo : Bool
  checkoutFails : Bool
  untrackedFiles : String
  userConfirmsClean : Bool
  cleanSucceeds : Bool
  chdirBackRaises : Bool
deriving Repr, DecidableEq

/-- The tally bucket of one revert iteration: `reverted_count` or
`failed_count`. -/
inductive RevOutcome
  | reverted
  | failed
deriving Repr, DecidableEq

/-- One iteration of the `revert_selected_changes` loop; every raise
is caught by the per-component handler, which tallies the failure and
continues with the next component. -/
def processRevertComponent (c : RevComponent) : RevOutcome :=
  if c.change_location = "" then .failed
  else if c.chdirRaises then .failed
  else if !c.isGitRepo then .failed
  else if c.checkoutFails then .failed
  else if c.chdirBackRaises then .failed
  else .reverted

/-- The counters `reverted_count`, `failed_count`. -/
structure RevTally where
  reverted : Nat
  failed : Nat
deriving Repr, DecidableEq

/-- Add one component's outcome to the revert tally. -/
def revStep (t : RevTally) (o : RevOutcome) : RevTally :=
  match o with
  | .reverted => { t with reverted := t.reverted + 1 }
  | .failed => { t with failed := t.failed + 1 }

/-- One iteration of the revert loop. -/
def revBatchStep (acc : RevTally × List RevOutcome) (c : RevComponent) :
    RevTally × List RevOutcome :=
  let o := processRevertComponent c
  (revStep acc.1 o, acc.2 ++ [o])

/-- The whole `revert_selected_changes` loop: final counters plus the
per-component outcomes in batch order. -/
def runRevertBatch (cs : List RevComponent) : RevTally × List RevOutcome :=
  cs.foldl revBatchStep (⟨0, 0⟩, [])

/-- Split a character list at newline characters (accumulator holds
the current line reversed). -/
def splitLinesChars : List Char → List Char → List (List Char)
  | [], cur => [cur.reverse]
  | c :: rest, cur =>
    if c = '\n' then cur.reverse :: splitLinesChars rest []
    else splitLinesChars rest (c :: cur)

/-- A porcelain status output that records untracked files and nothing
else: non-empty, and every line starts with git's untracked marker
`?? `.  Such a working copy's only deviation from a clean state is the
presence of untracked files. -/
def untrackedOnly (s : String) : Prop :=
  s ≠ "" ∧ ∀ line ∈ splitLinesChars s.data [], "?? ".data.isPrefixOf line

/-! ### Concrete sample data used by witnesses and counterexamples -/

/-- Tag metadata whose integrity check passes trivially: readable tag
object, no tagger line, no `VERSION` stored at the tag. -/
def tagMetaClean : TagMeta :=
  { timedOut := false, catFileOk := true, catFileErr := "",
    hasTaggerLine := false, taggerDate := none, objectHash := none,
    commitDate := none, showVersion := none }

/-- A component whose resolved path does not exist. -/
def stPathMissing : ComponentState :=
  { pathExists := false, gitMethodRaises := false, isGitRepo := true,
    describeExact := some "V1", tagCommit := "c0", headCommit := "c0",
    statusPorcelain := "", revListCount := some "0",
    tagMeta := tagMetaClean, versionFile := none,
    versionMtimeRecent := none, manifestVersion := none }

/-! ### Helper lemmas -/

/-- Every `(false, msg)` result of `reuseFallback` carries a
message. -/
theorem reuseFallback_false_isSome (m : TagMeta) (t : String) :
    (reuseFallback m t).1 = false → (reuseFallback m t).2.isSome := by
  unfold reuseFallback
  rcases hv : m.showVersion with _ | v <;> simp
  split_ifs <;> simp

/-- Every `(false, msg)` result of `check_tag_reuse` carries a
message. -/
theorem check_tag_reuse_false_isSome (m : TagMeta) (t : String) :
    (check_tag_reuse m t).1 = false → (check_tag_reuse m t).2.isSome := by
  unfold check_tag_reuse
  by_cases h1 : m.timedOut
  · simp [h1]
  · by_cases h2 : m.catFileOk
    · simp only [h1, h2, Bool.not_true, Bool.false_eq_true, if_false,
        if_true, Bool.not_false]
      by_cases h3 : m.hasTaggerLine
      · simp only [h3, if_true]
        rcases htd : m.taggerDate with _ | td
        · simp only [htd]
          exact reuseFallback_false_isSome m t
        · rcases hoh : m.objectHash with _ | oh
          · simp only [htd, hoh]
            exact reuseFallback_false_isSome m t
          · rcases hcd : m.commitDate with _ | (_ | cd)
            · simp only [htd, hoh, hcd]
              exact reuseFallback_false_isSome m t
            · simp only [htd, hoh, hcd]
              simp
            · simp only [htd, hoh, hcd]
              split_ifs
              · simp
              · exact reuseFallback_false_isSome m t
      · simp only [h3, if_false, Bool.false_eq_true]
        exact reuseFallback_false_isSome m t
    · simp [h1, h2]

/-- Shape of every result the git strategy returns: the expected tag is
echoed back, the path was seen to exist, an aligned result is silent
with the matching tag, and every misaligned result carries a
message. -/
theorem gitMethod_shape (e : String) (st : ComponentState) (r : CheckResult)
    (h : gitMethod e st = some r) :
    r.expected_tag = e ∧ r.path_exists = true ∧
    (r.is_aligned = true → r.error_message = none ∧ r.actual_tag = some e) ∧
    (r.is_aligned = false → r.error_message ≠ none) := by
  rcases st with ⟨pe, gr, igr, de, tc, hc, sp, rlc, tm, vf, vmr, mv⟩
  cases gr
  · cases igr
    · simp [gitMethod] at h
    · rcases de with _ | actual_tag
      · simp [gitMethod] at h
      · unfold gitMethod at h
        dsimp only at h
        rw [if_neg (by decide), if_pos rfl] at h
        split_ifs at h
        · injection h with h
          subst h
          exact ⟨rfl, rfl, by simp, by simp⟩
        · rename_i hint
          injection h with h
          subst h
          refine ⟨rfl, rfl, by simp, fun _ => ?_⟩
          have h1 : (check_tag_reuse tm actual_tag).1 = false := by
            simpa using hint
          exact Option.ne_none_iff_isSome.mpr
            (check_tag_reuse_false_isSome tm actual_tag h1)
        · injection h with h
          subst h
          exact ⟨rfl, rfl, by simp, by simp⟩
        · injection h with h
          subst h
          exact ⟨rfl, rfl, by simp, by simp⟩
        · rename_i hne hint hcm hun
          injection h with h
          subst h
          have hae : actual_tag = e := not_ne_iff.mp hne
          subst hae
          exact ⟨rfl, rfl, fun _ => ⟨rfl, rfl⟩, by simp⟩
  · simp [gitMethod] at h

/-- When the git strategy returns an aligned result, the exact-match
tag equals the expected tag, the integrity check passed, the tag's
commit is the checked-out commit, and the porcelain status was
empty. -/
theorem gitMethod_aligned (e : String) (st : ComponentState) (r : CheckResult)
    (h : gitMethod e st = some r) (hal : r.is_aligned = true) :
    st.describeExact = some e ∧ (check_tag_reuse st.tagMeta e).1 = true ∧
    st.tagCommit = st.headCommit ∧ st.statusPorcelain = "" := by
  rcases st with ⟨pe, gr, igr, de, tc, hc, sp, rlc, tm, vf, vmr, mv⟩
  cases gr
  · cases igr
    · simp [gitMethod] at h
    · rcases de with _ | actual_tag
      · simp [gitMethod] at h
      · unfold gitMethod at h
        dsimp only at h
        rw [if_neg (by decide), if_pos rfl] at h
        split_ifs at h
        · injection h with h
          subst h
          simp at hal
        · injection h with h
          subst h
          simp at hal
        · injection h with h
          subst h
          simp at hal
        · injection h with h
          subst h
          simp at hal
        · rename_i hne hint hcm hun
          injection h with h
          subst h
          have hae : actual_tag = e := not_ne_iff.mp hne
          subst hae
          refine ⟨rfl, ?_, not_ne_iff.mp hcm, not_ne_iff.mp hun⟩
          simpa using hint
  · simp [gitMethod] at h

/-- The git strategy always yields a result when the path is a work
tree whose exact-match tag query succeeded and nothing raised. -/
theorem gitMethod_isSome (e t : String) (st : ComponentState)
    (h1 : st.gitMethodRaises = false) (h2 : st.isGitRepo = true)
    (h3 : st.describeExact = some t) : (gitMethod e st).isSome := by
  unfold gitMethod
  rw [h1, h2, h3]
  rw [if_neg (by decide), if_pos rfl]
  dsimp only
  split_ifs <;> rfl

/-- When the path exists and the git strategy yields a result, that
result is what `check_component_tag` returns. -/
theorem check_of_gitMethod (c : Component) (dir : String)
    (st : ComponentState) (r' : CheckResult)
    (hpe : st.pathExists = true)
    (hg : gitMethod c.tag st = some r') :
    check_component_tag c dir st = .ok r' := by
  unfold check_component_tag
  dsimp only
  rw [hpe]
  rw [if_neg (by decide), hg]

/-- Shape of every tuple `check_component_tag` returns: the expected
tag is echoed; an aligned tuple is silent, carries exactly the
declared tag, reports the path as existing and is only produced when
the path existed; every misaligned tuple carries a diagnostic. -/
theorem check_shape (c : Component) (dir : String) (st : ComponentState)
    (r : CheckResult) (h : check_component_tag c dir st = .ok r) :
    r.expected_tag = c.tag ∧
    (r.is_aligned = true →
      r.error_message = none ∧ r.actual_tag = some c.tag ∧
      r.path_exists = true ∧ st.pathExists = true) ∧
    (r.is_aligned = false → r.error_message ≠ none) := by
  unfold check_component_tag at h
  dsimp only at h
  split at h
  · rename_i hp
    injection h with h
    subst h
    refine ⟨rfl, fun hal => absurd hal (by simp), by simp⟩
  · rename_i hp
    have hpe : st.pathExists = true := by
      rcases hb : st.pathExists with _ | _
      · rw [hb] at hp
        exact absurd rfl hp
      · rfl
    split at h
    · rename_i r' hg
      injection h with h
      subst h
      obtain ⟨he, hpath, hal, hmis⟩ :=
        gitMethod_shape c.tag st r' hg
      exact ⟨he, fun h1 => ⟨(hal h1).1, (hal h1).2, hpath, hpe⟩, hmis⟩
    · rename_i hg
      split at h
      · exact absurd h (by simp)
      · rename_i content
        split_ifs at h with hbeq
        · split at h
          · injection h with h
            subst h
            refine ⟨rfl, fun hal => absurd hal (by simp), by simp⟩
          · injection h with h
            subst h
            refine ⟨rfl, fun _ => ⟨rfl, ?_, rfl, hpe⟩, by simp⟩
            simpa using congrArg some (eq_of_beq hbeq)
        · injection h with h
          subst h
          refine ⟨rfl, fun hal => absurd hal (by simp), by simp⟩
      · split at h
        · rename_i actual_tag
          split_ifs at h with hbeq
          · injection h with h
            subst h
            refine ⟨rfl, fun _ => ⟨rfl, ?_, rfl, hpe⟩, by simp⟩
            simpa using congrArg some (eq_of_beq hbeq)
          · injection h with h
            subst h
            refine ⟨rfl, fun hal => absurd hal (by simp), by simp⟩
        · injection h with h
          subst h
          refine ⟨rfl, fun hal => absurd hal (by simp), by simp⟩

/-- A clean git working copy checked out exactly at its declared tag
`V1`. -/
def stGitAligned : ComponentState :=
  { pathExists := true, gitMethodRaises := false, isGitRepo := true,
    describeExact := some "V1", tagCommit := "c0", headCommit := "c0",
    statusPorcelain := "", revListCount := some "0",
    tagMeta := tagMetaClean, versionFile := none,
    versionMtimeRecent := none, manifestVersion := none }

/-- A git working copy with a tracked modification (` M src/main.c` in
the porcelain status) whose exact-match tag query fails, and whose
`VERSION` file holds the declared tag `V1`, last modified more than an
hour ago. -/
def stDirtyVersionAligned : ComponentState :=
  { pathExists := true, gitMethodRaises := false, isGitRepo := true,
    describeExact := none, tagCommit := "", headCommit := "",
    statusPorcelain := " M src/main.c", revListCount := none,
    tagMeta := tagMetaClean, versionFile := some (some "V1"),
    versionMtimeRecent := some false, manifestVersion := none }

/-- Claim C2: for every component whose resolved path does not exist,
the check returns the path-missing outcome — not aligned, no actual
tag, `path_exists` false, a diagnostic naming the resolved path —
regardless of every other fact about the component or repository; the
result depends on no other field of the state, so no probing strategy
is attempted. -/
theorem C2_path_missing (c : Component) (cmake_file_dir : String)
    (st : ComponentState) (h : st.pathExists = false) :
    check_component_tag c cmake_file_dir st =
      .ok ⟨false, none, c.tag,
        some ("Path does not exist: " ++ resolve_path c.path cmake_file_dir),
        false⟩ := by
  unfold check_component_tag
  dsimp only
  rw [h]
  exact if_pos (by decide)

/-- Witness for C2: a concrete component whose path is absent. -/
theorem C2_path_missing_witness :
    stPathMissing.pathExists = false ∧
    check_component_tag ⟨"SvResourceM", "CASCO", "p", "V1"⟩ "d" stPathMissing =
      .ok ⟨false, none, "V1", some "Path does not exist: p", false⟩ :=
  ⟨rfl, by rw [C2_path_missing _ _ _ rfl]; rfl⟩

/-- Claim C10: result-shape invariant — whenever `check_component_tag`
returns a tuple with `is_aligned = true`, its `error_message` is
`none`, its `actual_tag` is present and exactly the declared tag, and
`path_exists` is `true`; conversely every tuple with
`is_aligned = false` carries a non-`none` `error_message`. -/
theorem C10_result_shape (c : Component) (cmake_file_dir : String)
    (st : ComponentState) (r : CheckResult)
    (h : check_component_tag c cmake_file_dir st = .ok r) :
    (r.is_aligned = true →
      r.error_message = none ∧ r.actual_tag = some c.tag ∧
      r.path_exists = true) ∧
    (r.is_aligned = false → r.error_message ≠ none) := by
  obtain ⟨-, h2, h3⟩ := check_shape c cmake_file_dir st r h
  exact ⟨fun hal => ⟨(h2 hal).1, (h2 hal).2.1, (h2 hal).2.2.1⟩, h3⟩

/-- Witness for C10 at a concrete aligned run. -/
theorem C10_result_shape_witness :
    check_component_tag ⟨"M", "K", "p", "V1"⟩ "d" stGitAligned =
      .ok ⟨true, some "V1", "V1", none, true⟩ ∧
    (((⟨true, some "V1", "V1", none, true⟩ : CheckResult).is_aligned = true →
      (⟨true, some "V1", "V1", none, true⟩ : CheckResult).error_message
          = none ∧
      (⟨true, some "V1", "V1", none, true⟩ : CheckResult).actual_tag
          = some "V1" ∧
      (⟨true, some "V1", "V1", none, true⟩ : CheckResult).path_exists
          = true) ∧
    ((⟨true, some "V1", "V1", none, true⟩ : CheckResult).is_aligned = false →
      (⟨true, some "V1", "V1", none, true⟩ : CheckResult).error_message
          ≠ none)) :=
  ⟨rfl, C10_result_shape ⟨"M", "K", "p", "V1"⟩ "d" stGitAligned _ rfl⟩

/-- Counterexample to claim C1 as stated: a component whose working
copy has uncommitted changes (tracked modification ` M src/main.c` in
the porcelain status of a git work tree) is nevertheless reported
aligned, because its version was detected through the `VERSION`
marker-file fallback (the exact-match tag query failed), and that
fallback never consults the working copy's dirty state. -/
theorem C1_counterexample :
    check_component_tag ⟨"SvM", "CASCO", "p", "V1"⟩ "d"
        stDirtyVersionAligned =
      .ok ⟨true, some "V1", "V1", none, true⟩ ∧
    stDirtyVersionAligned.isGitRepo = true ∧
    stDirtyVersionAligned.statusPorcelain ≠ "" :=
  ⟨rfl, rfl, by decide⟩

/-- Claim C1 (amended): the check reports a component aligned only
when the resolved path exists, a version was detected and it exactly
equals the declared tag; the further conditions — no commits beyond
the detected version, no uncommitted changes, no tag-integrity
suspicion — are enforced only when the version was detected through
the git exact-match strategy.  (A component detected via the VERSION
marker file or the manifest.json fallback can be reported aligned even
though its working copy has uncommitted changes.) -/
theorem C1_aligned_only_if (c : Component) (cmake_file_dir : String)
    (st : ComponentState) (r : CheckResult)
    (h : check_component_tag c cmake_file_dir st = .ok r)
    (hal : r.is_aligned = true) :
    st.pathExists = true ∧ r.actual_tag = some c.tag ∧
    r.error_message = none ∧
    (st.gitMethodRaises = false → st.isGitRepo = true →
      st.describeExact.isSome →
        st.describeExact = some c.tag ∧
        (check_tag_reuse st.tagMeta c.tag).1 = true ∧
        st.tagCommit = st.headCommit ∧ st.statusPorcelain = "") := by
  obtain ⟨-, h2, -⟩ := check_shape c cmake_file_dir st r h
  refine ⟨(h2 hal).2.2.2, (h2 hal).2.1, (h2 hal).1, ?_⟩
  intro hg1 hg2 hde
  obtain ⟨t, ht⟩ := Option.isSome_iff_exists.mp hde
  have hsome := gitMethod_isSome c.tag t st hg1 hg2 ht
  obtain ⟨r', hr'⟩ := Option.isSome_iff_exists.mp hsome
  have hck := check_of_gitMethod c cmake_file_dir st r'
    (h2 hal).2.2.2 hr'
  have hrr : r' = r := by
    have := hck.symm.trans h
    injection this
  subst hrr
  exact gitMethod_aligned c.tag st r' hr' hal

/-- Witness for the amended C1 at a concrete aligned git run. -/
theorem C1_aligned_only_if_witness :
    check_component_tag ⟨"M", "K", "p", "V1"⟩ "d" stGitAligned =
      .ok ⟨true, some "V1", "V1", none, true⟩ ∧
    (stGitAligned.pathExists = true ∧
      (⟨true, some "V1", "V1", none, true⟩ : CheckResult).actual_tag
        = some "V1" ∧
      (⟨true, some "V1", "V1", none, true⟩ : CheckResult).error_message
        = none ∧
      (stGitAligned.gitMethodRaises = false → stGitAligned.isGitRepo = true →
        stGitAligned.describeExact.isSome →
          stGitAligned.describeExact = some "V1" ∧
          (check_tag_reuse stGitAligned.tagMeta "V1").1 = true ∧
          stGitAligned.tagCommit = stGitAligned.headCommit ∧
          stGitAligned.statusPorcelain = "")) :=
  ⟨rfl, C1_aligned_only_if ⟨"M", "K", "p", "V1"⟩ "d" stGitAligned _ rfl rfl⟩

/-- A git working copy checked out exactly at matching tag `V1`, clean
except for one untracked file (`?? new.txt` in the porcelain
status). -/
def stUntrackedOnly : ComponentState :=
  { pathExists := true, gitMethodRaises := false, isGitRepo := true,
    describeExact := some "V1", tagCommit := "c0", headCommit := "c0",
    statusPorcelain := "?? new.txt", revListCount := some "0",
    tagMeta := tagMetaClean, versionFile := none,
    versionMtimeRecent := none, manifestVersion := none }

/-- Counterexample to claim C3 as stated: the probe's dirty check is
`git status --porcelain` output being non-empty, and porcelain output
lists untracked files (as `?? ` lines).  A working copy whose current
commit carries the exactly matching tag, with no commits beyond the
tag and whose only deviation from a clean state is one untracked file
is reported with the uncommitted-changes outcome. -/
theorem C3_counterexample :
    untrackedOnly stUntrackedOnly.statusPorcelain ∧
    stUntrackedOnly.describeExact = some "V1" ∧
    stUntrackedOnly.tagCommit = stUntrackedOnly.headCommit ∧
    check_component_tag ⟨"M", "K", "p", "V1"⟩ "d" stUntrackedOnly =
      .ok ⟨false, some "V1", "V1",
        some "Tag is correct but there are uncommitted changes", true⟩ :=
  ⟨⟨by decide, by decide⟩, rfl, rfl, rfl⟩

/-- Claim C3 (amended): the probe's uncommitted-changes determination
counts any non-empty `git status --porcelain` output, untracked files
included: for every working copy whose current commit carries the
exactly matching tag, with no commits beyond the tag and whose only
deviation from a clean state is the presence of untracked files, the
check DOES report the uncommitted-changes outcome. -/
theorem C3_untracked_reported (c : Component) (dir : String)
    (st : ComponentState)
    (h1 : st.gitMethodRaises = false) (h2 : st.isGitRepo = true)
    (h3 : st.describeExact = some c.tag)
    (h4 : (check_tag_reuse st.tagMeta c.tag).1 = true)
    (h5 : st.tagCommit = st.headCommit)
    (h6 : untrackedOnly st.statusPorcelain)
    (hpe : st.pathExists = true) :
    check_component_tag c dir st =
      .ok ⟨false, some c.tag, c.tag,
        some "Tag is correct but there are uncommitted changes", true⟩ := by
  apply check_of_gitMethod c dir st _ hpe
  unfold gitMethod
  rw [h1, h2, h3]
  rw [if_neg (by decide), if_pos rfl]
  dsimp only
  have hint : ¬((!(check_tag_reuse st.tagMeta c.tag).1) = true) := by
    rw [h4]
    decide
  rw [if_neg (not_ne_iff.mpr rfl), if_neg hint,
    if_neg (not_ne_iff.mpr h5), if_pos h6.1]

/-- Witness for the amended C3 at the untracked-only state. -/
theorem C3_untracked_reported_witness :
    (check_tag_reuse stUntrackedOnly.tagMeta "V1").1 = true ∧
    untrackedOnly stUntrackedOnly.statusPorcelain ∧
    check_component_tag ⟨"M", "K", "p", "V1"⟩ "d" stUntrackedOnly =
      .ok ⟨false, some "V1", "V1",
        some "Tag is correct but there are uncommitted changes", true⟩ :=
  ⟨rfl, ⟨by decide, by decide⟩,
    C3_untracked_reported ⟨"M", "K", "p", "V1"⟩ "d" stUntrackedOnly
      rfl rfl rfl rfl rfl ⟨by decide, by decide⟩ rfl⟩

/-- A component directory that is not a git work tree but contains a
`VERSION` file that cannot be read (for instance, no read
permission). -/
def stUnreadableVersion : ComponentState :=
  { pathExists := true, gitMethodRaises := false, isGitRepo := false,
    describeExact := none, tagCommit := "", headCommit := "",
    statusPorcelain := "", revListCount := none,
    tagMeta := tagMetaClean, versionFile := some none,
    versionMtimeRecent := none, manifestVersion := none }

/-- Counterexample to claim C4 as stated: with a present but unreadable
`VERSION` file and no git detection, `check_component_tag` propagates
the read exception to its caller — the `open` and `read` of the
`VERSION` file are outside every `try` block — instead of returning a
result tuple. -/
theorem C4_counterexample :
    check_component_tag ⟨"M", "K", "p", "V1"⟩ "d" stUnreadableVersion =
      .error "unhandled exception reading p/VERSION" := rfl

/-- Claim C4 (amended): the probe returns a result tuple rather than
propagating an error in every case but one — the `VERSION` marker-file
read is not guarded by any `try`, so a present but unreadable
`VERSION` file (reached when the git strategy yields nothing)
propagates an exception; every other failure (git strategy exception,
failing or timing-out git command, unreadable manifest.json) degrades
to a returned tuple with a diagnostic string. -/
theorem C4_no_raise_unless_version_unreadable (c : Component)
    (dir : String) (st : ComponentState)
    (h : st.versionFile ≠ some none) :
    ∃ r, check_component_tag c dir st = .ok r := by
  unfold check_component_tag
  dsimp only
  by_cases hpe : (!st.pathExists) = true
  · rw [if_pos hpe]
    exact ⟨_, rfl⟩
  · rw [if_neg hpe]
    rcases hg : gitMethod c.tag st with _ | r'
    · rcases hvf : st.versionFile with _ | ov
      · rcases hmv : st.manifestVersion with _ | mva
        · exact ⟨_, rfl⟩
        · rcases mva with _ | actual
          · exact ⟨_, rfl⟩
          · dsimp only
            by_cases hbeq : (actual == c.tag) = true
            · rw [if_pos hbeq]
              exact ⟨_, rfl⟩
            · rw [if_neg hbeq]
              exact ⟨_, rfl⟩
      · rcases ov with _ | content
        · exact absurd hvf h
        · dsimp only
          by_cases hbeq : (pyStrip content == c.tag) = true
          · rw [if_pos hbeq]
            rcases hvm : st.versionMtimeRecent with _ | b
            · exact ⟨_, rfl⟩
            · rcases b with _ | _
              · exact ⟨_, rfl⟩
              · exact ⟨_, rfl⟩
          · rw [if_neg hbeq]
            exact ⟨_, rfl⟩
    · exact ⟨_, rfl⟩

/-- Witness for the amended C4 at a readable state. -/
theorem C4_no_raise_witness :
    stGitAligned.versionFile ≠ some none ∧
    ∃ r, check_component_tag ⟨"M", "K", "p", "V1"⟩ "d" stGitAligned =
      .ok r :=
  ⟨by decide,
    C4_no_raise_unless_version_unreadable ⟨"M", "K", "p", "V1"⟩ "d"
      stGitAligned (by decide)⟩

/-- Claim C5: for every git-controlled component whose checked-out
commit carries an annotated tag exactly equal to the declared tag, if
the tag's recorded creation (tagger) timestamp is strictly earlier
than the timestamp of the commit it targets, the check reports the
tag-integrity-suspect outcome (the reuse diagnostic) instead of
aligned, even though the tag strings match. -/
theorem C5_tag_integrity_suspect (c : Component) (dir : String)
    (st : ComponentState) (tagDate commitDate : Nat) (hash : String)
    (hpe : st.pathExists = true)
    (h1 : st.gitMethodRaises = false) (h2 : st.isGitRepo = true)
    (h3 : st.describeExact = some c.tag)
    (hm1 : st.tagMeta.timedOut = false)
    (hm2 : st.tagMeta.catFileOk = true)
    (hm3 : st.tagMeta.hasTaggerLine = true)
    (hm4 : st.tagMeta.taggerDate = some tagDate)
    (hm5 : st.tagMeta.objectHash = some hash)
    (hm6 : st.tagMeta.commitDate = some (some commitDate))
    (hlt : tagDate < commitDate) :
    check_component_tag c dir st =
      .ok ⟨false, some c.tag, c.tag,
        some ("Tag " ++ c.tag ++
          " appears to have been reused (created before its commit)"),
        true⟩ := by
  have hre : check_tag_reuse st.tagMeta c.tag =
      (false, some ("Tag " ++ c.tag ++
        " appears to have been reused (created before its commit)")) := by
    unfold check_tag_reuse
    rw [hm1, hm2, hm3, hm4, hm5, hm6]
    rw [if_neg (by decide), if_neg (by decide)]
    dsimp only
    rw [if_pos rfl, if_pos hlt]
  apply check_of_gitMethod c dir st _ hpe
  unfold gitMethod
  rw [h1, h2, h3]
  rw [if_neg (by decide), if_pos rfl]
  dsimp only
  rw [if_neg (not_ne_iff.mpr rfl), hre]
  simp

/-- A git working copy at declared tag `V2.0.0` whose annotated tag
records tagger time 100 while its target commit carries time 200. -/
def stTagReused : ComponentState :=
  { pathExists := true, gitMethodRaises := false, isGitRepo := true,
    describeExact := some "V2.0.0", tagCommit := "c0", headCommit := "c0",
    statusPorcelain := "", revListCount := some "0",
    tagMeta := { timedOut := false, catFileOk := true, catFileErr := "",
                 hasTaggerLine := true, taggerDate := some 100,
                 objectHash := some "abc123",
                 commitDate := some (some 200), showVersion := none },
    versionFile := none, versionMtimeRecent := none,
    manifestVersion := none }

/-- Witness for C5: the `Beta` scenario, tagger time 100 earlier than
commit time 200. -/
theorem C5_tag_integrity_suspect_witness :
    (100 : Nat) < 200 ∧
    check_component_tag ⟨"Beta", "K", "p", "V2.0.0"⟩ "d" stTagReused =
      .ok ⟨false, some "V2.0.0", "V2.0.0",
        some "Tag V2.0.0 appears to have been reused (created before its commit)",
        true⟩ := by
  refine ⟨by decide, ?_⟩
  rw [C5_tag_integrity_suspect ⟨"Beta", "K", "p", "V2.0.0"⟩ "d" stTagReused
    100 200 "abc123" rfl rfl rfl rfl rfl rfl rfl rfl rfl rfl (by decide)]
  rfl

/-- Claim C6: for every git-controlled component whose exactly
matching tag points to a commit different from the checked-out commit
(no tag mismatch, no integrity suspicion), the check reports the
commits-ahead outcome whose diagnostic embeds the count reported by
`git rev-list --count`; whenever that counting command fails
(`revListCount = none`), the diagnostic embeds the degraded
placeholder `unknown number of` instead, without failing the whole
probe. -/
theorem C6_commits_ahead (c : Component) (dir : String)
    (st : ComponentState)
    (hpe : st.pathExists = true)
    (h1 : st.gitMethodRaises = false) (h2 : st.isGitRepo = true)
    (h3 : st.describeExact = some c.tag)
    (h4 : (check_tag_reuse st.tagMeta c.tag).1 = true)
    (h5 : st.tagCommit ≠ st.headCommit) :
    check_component_tag c dir st =
      .ok ⟨false, some c.tag, c.tag,
        some ("Tag is correct but there are " ++
          st.revListCount.getD "unknown number of" ++
          " commits after the tag"), true⟩ := by
  apply check_of_gitMethod c dir st _ hpe
  unfold gitMethod
  rw [h1, h2, h3]
  rw [if_neg (by decide), if_pos rfl]
  dsimp only
  have hint : ¬((!(check_tag_reuse st.tagMeta c.tag).1) = true) := by
    rw [h4]
    decide
  rw [if_neg (not_ne_iff.mpr rfl), if_neg hint, if_pos h5]

/-- The `Gamma` scenario: matching tag `V3.0.0`, two commits beyond
it, counting succeeds with output `2`. -/
def stCommitsAhead2 : ComponentState :=
  { pathExists := true, gitMethodRaises := false, isGitRepo := true,
    describeExact := some "V3.0.0", tagCommit := "t0", headCommit := "h2",
    statusPorcelain := "", revListCount := some "2",
    tagMeta := tagMetaClean, versionFile := none,
    versionMtimeRecent := none, manifestVersion := none }

/-- Like `stCommitsAhead2` but the counting command fails. -/
def stCountFails : ComponentState :=
  { pathExists := true, gitMethodRaises := false, isGitRepo := true,
    describeExact := some "V3.0.0", tagCommit := "t0", headCommit := "h2",
    statusPorcelain := "", revListCount := none,
    tagMeta := tagMetaClean, versionFile := none,
    versionMtimeRecent := none, manifestVersion := none }

/-- Witness for C6: the `Gamma` scenario with count 2 and the degraded
`unknown number of` placeholder when counting fails. -/
theorem C6_commits_ahead_witness :
    check_component_tag ⟨"Gamma", "K", "p", "V3.0.0"⟩ "d" stCommitsAhead2 =
      .ok ⟨false, some "V3.0.0", "V3.0.0",
        some "Tag is correct but there are 2 commits after the tag",
        true⟩ ∧
    check_component_tag ⟨"Gamma", "K", "p", "V3.0.0"⟩ "d" stCountFails =
      .ok ⟨false, some "V3.0.0", "V3.0.0",
        some "Tag is correct but there are unknown number of commits after the tag",
        true⟩ := by
  constructor
  · rw [C6_commits_ahead ⟨"Gamma", "K", "p", "V3.0.0"⟩ "d" stCommitsAhead2
      rfl rfl rfl rfl rfl (by decide)]
    rfl
  · rw [C6_commits_ahead ⟨"Gamma", "K", "p", "V3.0.0"⟩ "d" stCountFails
      rfl rfl rfl rfl rfl (by decide)]
    rfl

/-- The number of quoted-literal-groups-of-four in the pattern-(a)
block of target `t` (zero when the manifest has no such block).  A
pattern-(a) block is a section that is not skipped as a variable
self-reference — the pass-(a) regex also matches every pattern-(b)
append line, but such a shadow match is skipped whole and is not a
block declaration. -/
def aGroupsOfFour (f : CmakeFile) (t : String) : Nat :=
  match (f.sections.filter (fun s => !s.startsWithVarRef)).find?
      (fun s => s.target = t) with
  | some s => groupsOfFour s
  | none => 0

/-- On lines that each carry exactly four quoted strings, the pass-(a)
loop emits one record per effective line. -/
theorem processLines_valid (ls : List CmakeLine)
    (h : ∀ l ∈ ls, lineEffective l → l.quotes.length = 4) :
    (processLines ls []).length = (ls.filter lineEffective).length := by
  induction ls with
  | nil => rfl
  | cons l ls ih =>
    by_cases hl : lineEffective l = true
    · have h4 : l.quotes.length = 4 := h l (by simp) hl
      have hrest : ∀ x ∈ ls, lineEffective x → x.quotes.length = 4 :=
        fun x hx hex => h x (by simp [hx]) hex
      simp only [processLines, hl, if_true, List.nil_append]
      rw [if_pos (by rw [h4])]
      simp only [List.length_cons, List.filter_cons, hl, if_true]
      rw [ih hrest]
    · have hrest : ∀ x ∈ ls, lineEffective x → x.quotes.length = 4 :=
        fun x hx hex => h x (by simp [hx]) hex
      simp only [processLines, hl, if_false, List.filter_cons,
        Bool.false_eq_true]
      rw [ih hrest]

/-- The quoted strings of a run of all-four-quote lines sum to four
per line. -/
theorem quotes_sum_of_all_four (ls : List CmakeLine)
    (h : ∀ l ∈ ls, l.quotes.length = 4) :
    (ls.map (fun l => l.quotes.length)).sum = 4 * ls.length := by
  induction ls with
  | nil => rfl
  | cons l ls ih =>
    simp only [List.map_cons, List.sum_cons, List.length_cons]
    rw [h l (by simp), ih (fun x hx => h x (by simp [hx]))]
    ring

/-- Under the validity condition, the records a section yields are
counted exactly by its quoted-literal-groups-of-four. -/
theorem sectionRecords_length (s : CmakeSection)
    (h : ¬s.startsWithVarRef →
      ∀ l ∈ s.lines, lineEffective l → l.quotes.length = 4) :
    (sectionRecords s).length = groupsOfFour s := by
  unfold sectionRecords groupsOfFour
  by_cases hv : s.startsWithVarRef
  · simp [hv]
  · simp only [hv, if_false, Bool.false_eq_true]
    have h4 := h hv
    rw [processLines_valid s.lines h4]
    have hall : ∀ l ∈ s.lines.filter lineEffective, l.quotes.length = 4 := by
      intro l hl
      rw [List.mem_filter] at hl
      exact h4 l hl.1 hl.2
    rw [quotes_sum_of_all_four _ hall]
    rw [Nat.mul_div_cancel_left _ (by norm_num)]

/-- Dict lookup after dict assignment. -/
theorem lookupGroup_setGroup (gs : List (String × List Component))
    (t t' : String) (cs : List Component) :
    lookupGroup (setGroup gs t cs) t' =
      if t' = t then some cs else lookupGroup gs t' := by
  induction gs with
  | nil =>
    unfold setGroup lookupGroup
    split_ifs <;> first | rfl | simp_all [lookupGroup]
  | cons kv rest ih =>
    obtain ⟨k, v⟩ := kv
    unfold setGroup
    split_ifs with hk ht
    all_goals unfold lookupGroup
    all_goals split_ifs <;> simp_all [ih]

/-- Dict lookup after the pass-(b) per-match update. -/
theorem lookupGroup_appendToGroup (gs : List (String × List Component))
    (t t' : String) (c : Component) :
    lookupGroup (appendToGroup gs t c) t' =
      if t' = t then some ((lookupGroup gs t).getD [] ++ [c])
      else lookupGroup gs t' := by
  induction gs with
  | nil =>
    unfold appendToGroup lookupGroup
    split_ifs <;> first | rfl | simp_all [lookupGroup]
  | cons kv rest ih =>
    obtain ⟨k, v⟩ := kv
    unfold appendToGroup
    split_ifs with hk ht
    all_goals unfold lookupGroup
    all_goals split_ifs <;> simp_all [ih]

/-- The pass-(a) step expressed through `sectionRecords`. -/
theorem passAStep_eq (gs : List (String × List Component))
    (s : CmakeSection) :
    passAStep gs s =
      if sectionRecords s = [] then gs
      else setGroup gs s.target (sectionRecords s) := by
  unfold passAStep sectionRecords
  by_cases hv : s.startsWithVarRef
  · simp [hv]
  · simp only [hv, Bool.false_eq_true, if_false]

/-- Lookup in the empty table. -/
theorem lookupGroup_nil (t : String) :
    lookupGroup [] t = none := rfl

/-- Lookup after the pass-(a) fold.  Skipped (variable
self-reference) sections never touch the table, so only the
non-skipped sections matter; their targets are assumed pairwise
distinct.  No assumption on the accumulator is needed: the step
overwrites like a dict assignment. -/
theorem passAFold_lookup (sections : List CmakeSection)
    (gs : List (String × List Component)) (t : String)
    (hnd : ((sections.filter (fun s => !s.startsWithVarRef)).map
      CmakeSection.target).Nodup) :
    lookupGroup (sections.foldl passAStep gs) t =
      match (sections.filter (fun s => !s.startsWithVarRef)).find?
          (fun s => s.target = t) with
      | some s =>
        if sectionRecords s = [] then lookupGroup gs t
        else some (sectionRecords s)
      | none => lookupGroup gs t := by
  induction sections generalizing gs with
  | nil => rfl
  | cons s rest ih =>
    rw [List.foldl_cons, passAStep_eq]
    by_cases hv : s.startsWithVarRef
    · have hrec : sectionRecords s = [] := by
        unfold sectionRecords
        rw [if_pos hv]
      rw [if_pos hrec]
      rw [List.filter_cons_of_neg (by simp [hv])] at hnd ⊢
      exact ih gs hnd
    · rw [List.filter_cons_of_pos (by simp [hv])] at hnd ⊢
      rw [List.map_cons, List.nodup_cons] at hnd
      obtain ⟨hmem, hnd'⟩ := hnd
      have hrestne : ∀ s' ∈ rest.filter (fun s => !s.startsWithVarRef),
          s'.target ≠ s.target := by
        intro s' hs' he
        exact hmem (he ▸ List.mem_map_of_mem CmakeSection.target hs')
      by_cases hrec : sectionRecords s = []
      · rw [if_pos hrec]
        rw [ih gs hnd']
        by_cases hts : s.target = t
        · have hfind : (rest.filter (fun s => !s.startsWithVarRef)).find?
              (fun s' => s'.target = t) = none := by
            rw [List.find?_eq_none]
            intro s' hs'
            simp only [decide_eq_true_eq]
            rw [← hts]
            exact hrestne s' hs'
          rw [hfind, List.find?_cons_of_pos _ (by simp [hts])]
          dsimp only
          rw [if_pos hrec]
        · rw [List.find?_cons_of_neg _ (by simp [hts])]
      · rw [if_neg hrec]
        rw [ih (setGroup gs s.target (sectionRecords s)) hnd']
        by_cases hts : s.target = t
        · have hfind : (rest.filter (fun s => !s.startsWithVarRef)).find?
              (fun s' => s'.target = t) = none := by
            rw [List.find?_eq_none]
            intro s' hs'
            simp only [decide_eq_true_eq]
            rw [← hts]
            exact hrestne s' hs'
          rw [hfind, List.find?_cons_of_pos _ (by simp [hts])]
          dsimp only
          rw [if_neg hrec, lookupGroup_setGroup, if_pos hts.symm]
        · rw [List.find?_cons_of_neg _ (by simp [hts])]
          have hlk : lookupGroup (setGroup gs s.target (sectionRecords s)) t
              = lookupGroup gs t := by
            rw [lookupGroup_setGroup, if_neg (fun h => hts h.symm)]
          rcases hfind : (rest.filter (fun s => !s.startsWithVarRef)).find?
              (fun s' => s'.target = t) with _ | s'
          · rw [hlk]
          · rw [hlk]

/-- Lookup after the pass-(b) fold: the append declarations for the
queried target land, in order, behind whatever the table already held
for it. -/
theorem passBFold_lookup (as : List AppendDecl)
    (gs : List (String × List Component)) (t : String) :
    lookupGroup (as.foldl passBStep gs) t =
      match lookupGroup gs t with
      | some l =>
        some (l ++ (as.filter (fun a => a.target = t)).map appendRecord)
      | none =>
        if (as.filter (fun a => a.target = t)).map appendRecord = [] then
          none
        else some ((as.filter (fun a => a.target = t)).map appendRecord) := by
  induction as generalizing gs with
  | nil =>
    rcases h : lookupGroup gs t with _ | l <;> simp [h]
  | cons a rest ih =>
    rw [List.foldl_cons, ih]
    have hstep : lookupGroup (passBStep gs a) t =
        if t = a.target then
          some ((lookupGroup gs a.target).getD [] ++ [appendRecord a])
        else lookupGroup gs t := by
      unfold passBStep
      rw [lookupGroup_appendToGroup]
    rw [hstep]
    by_cases hat : a.target = t
    · rw [hat, if_pos rfl]
      rw [List.filter_cons_of_pos (by simp [hat])]
      rcases h : lookupGroup gs t with _ | l
      · simp
      · simp
    · rw [if_neg (fun he => hat he.symm)]
      rw [List.filter_cons_of_neg (by simp [hat])]

/-- Claim C7: for every valid manifest, each target group that
`parse_cmake_file` yields holds that group's pattern-(a) records
followed by its pattern-(b) records, and its length equals the number
of quoted-literal-groups-of-four found in the group's pattern-(a)
block declaration plus the number of pattern-(b) single-line append
declarations for the group. -/
theorem C7_parse_counts (f : CmakeFile) (hv : validCmake f) (t : String)
    (cs : List Component)
    (h : lookupGroup (parse_cmake_file f) t = some cs) :
    cs = aRecords f t ++ bRecords f t ∧
    cs.length = aGroupsOfFour f t + (appendsFor f t).length := by
  obtain ⟨hnd, hq⟩ := hv
  unfold parse_cmake_file parsePassA at h
  rw [passBFold_lookup, passAFold_lookup f.sections [] t hnd] at h
  unfold aRecords bRecords appendsFor aGroupsOfFour
  rcases hfind : (f.sections.filter (fun s => !s.startsWithVarRef)).find?
      (fun s => s.target = t) with _ | s
  · rw [hfind] at h ⊢
    rw [lookupGroup_nil] at h
    dsimp only at h
    by_cases hbs :
        (f.appends.filter (fun a => a.target = t)).map appendRecord = []
    · rw [if_pos hbs] at h
      exact absurd h (by simp)
    · rw [if_neg hbs] at h
      injection h with h
      subst h
      refine ⟨by rw [List.nil_append], ?_⟩
      rw [List.length_map, Nat.zero_add]
  · rw [hfind] at h ⊢
    dsimp only at h ⊢
    have hmem : s ∈ f.sections :=
      List.mem_of_mem_filter (List.mem_of_find?_eq_some hfind)
    have hlen := sectionRecords_length s (hq s hmem)
    by_cases hrec : sectionRecords s = []
    · rw [if_pos hrec, lookupGroup_nil] at h
      dsimp only at h
      by_cases hbs :
          (f.appends.filter (fun a => a.target = t)).map appendRecord = []
      · rw [if_pos hbs] at h
        exact absurd h (by simp)
      · rw [if_neg hbs] at h
        injection h with h
        subst h
        refine ⟨by rw [hrec, List.nil_append], ?_⟩
        rw [List.length_map, ← hlen, hrec]
        rw [List.length_nil, Nat.zero_add]
    · rw [if_neg hrec] at h
      dsimp only at h
      injection h with h
      subst h
      refine ⟨rfl, ?_⟩
      rw [List.length_append, List.length_map, hlen]

/-- The match data of this concrete manifest text:

    set(MODULES_app
        # group app
        "M1" "K1" "p1" "T1"
        "M2" "K2" "p2" "T2"
    )
    set(MODULES_app "$\x7bMODULES_app\x7d" "M3" "K3" "p3" "T3")
    set(MODULES_fbl "$\x7bMODULES_fbl\x7d" "M4" "K4" "p4" "T4")

Pass (a) matches the `app` block AND both append lines — the latter as
sections whose content starts with a `MODULES` variable reference,
skipped whole (note the duplicate `app` target among the raw
matches).  Pass (b) matches the two append lines. -/
def sampleCmake : CmakeFile :=
  { sections :=
      [ { target := "app", startsWithVarRef := false,
          lines :=
            [ ⟨true, false, []⟩,
              ⟨false, false, ["M1", "K1", "p1", "T1"]⟩,
              ⟨false, false, ["M2", "K2", "p2", "T2"]⟩ ] },
        { target := "app", startsWithVarRef := true,
          lines :=
            [ ⟨false, true,
                ["${MODULES_app}", "M3", "K3", "p3", "T3"]⟩ ] },
        { target := "fbl", startsWithVarRef := true,
          lines :=
            [ ⟨false, true,
                ["${MODULES_fbl}", "M4", "K4", "p4", "T4"]⟩ ] } ],
    appends :=
      [ ⟨"app", "M3", "K3", "p3", "T3"⟩,
        ⟨"fbl", "M4", "K4", "p4", "T4"⟩ ] }

/-- The `app` group the parser extracts from `sampleCmake`. -/
def sampleAppGroup : List Component :=
  [⟨"M1", "K1", "p1", "T1"⟩, ⟨"M2", "K2", "p2", "T2"⟩,
   ⟨"M3", "K3", "p3", "T3"⟩]

/-- The `fbl` group the parser extracts from `sampleCmake`. -/
def sampleFblGroup : List Component :=
  [⟨"M4", "K4", "p4", "T4"⟩]

/-- Witness for C7 on a manifest combining a pattern-(a) block with a
pattern-(b) append for the same group: the manifest is valid, its
`app` group is the two pattern-(a) records followed by the one
pattern-(b) record (3 = 2 groups-of-four + 1 append), and its
append-only `fbl` group holds the one append (1 = 0 + 1). -/
theorem C7_parse_counts_witness :
    validCmake sampleCmake ∧
    lookupGroup (parse_cmake_file sampleCmake) "app" = some sampleAppGroup ∧
    lookupGroup (parse_cmake_file sampleCmake) "fbl" = some sampleFblGroup ∧
    (sampleAppGroup =
        aRecords sampleCmake "app" ++ bRecords sampleCmake "app" ∧
      sampleAppGroup.length =
        aGroupsOfFour sampleCmake "app" +
          (appendsFor sampleCmake "app").length) ∧
    (sampleFblGroup =
        aRecords sampleCmake "fbl" ++ bRecords sampleCmake "fbl" ∧
      sampleFblGroup.length =
        aGroupsOfFour sampleCmake "fbl" +
          (appendsFor sampleCmake "fbl").length) :=
  ⟨⟨by decide, by decide⟩, rfl, rfl,
    C7_parse_counts sampleCmake ⟨by decide, by decide⟩ "app"
      sampleAppGroup rfl,
    C7_parse_counts sampleCmake ⟨by decide, by decide⟩ "fbl"
      sampleFblGroup rfl⟩

/-- Total of the update counters. -/
def updTotal (t : UpdTally) : Nat := t.updated + t.cloned + t.failed

/-- Total of the revert counters. -/
def revTotal (t : RevTally) : Nat := t.reverted + t.failed

/-- The recorded effects of an update fold are the accumulator's
followed by one effect per component, each a function of that
component alone. -/
theorem updFold_results (cs : List UpdComponent)
    (acc : UpdTally × List UpdEffect) :
    (cs.foldl updBatchStep acc).2 =
      acc.2 ++ cs.map processUpdateComponent := by
  induction cs generalizing acc with
  | nil => simp
  | cons c cs ih =>
    rw [List.foldl_cons]
    rw [ih]
    unfold updBatchStep
    simp

/-- Every component of an update fold is counted in exactly one
counter. -/
theorem updFold_total (cs : List UpdComponent)
    (acc : UpdTally × List UpdEffect) :
    updTotal (cs.foldl updBatchStep acc).1 = updTotal acc.1 + cs.length := by
  induction cs generalizing acc with
  | nil => simp
  | cons c cs ih =>
    rw [List.foldl_cons, ih]
    have hstep : updTotal (updBatchStep acc c).1 = updTotal acc.1 + 1 := by
      show updTotal (updStep acc.1 (processUpdateComponent c)) =
        updTotal acc.1 + 1
      unfold updStep updTotal
      cases (processUpdateComponent c).outcome
      all_goals dsimp only
      all_goals omega
    rw [hstep, List.length_cons]
    omega

/-- The recorded outcomes of a revert fold are the accumulator's
followed by one outcome per component, each a function of that
component alone. -/
theorem revFold_results (cs : List RevComponent)
    (acc : RevTally × List RevOutcome) :
    (cs.foldl revBatchStep acc).2 =
      acc.2 ++ cs.map processRevertComponent := by
  induction cs generalizing acc with
  | nil => simp
  | cons c cs ih =>
    rw [List.foldl_cons]
    rw [ih]
    unfold revBatchStep
    simp

/-- Every component of a revert fold is counted in exactly one
counter. -/
theorem revFold_total (cs : List RevComponent)
    (acc : RevTally × List RevOutcome) :
    revTotal (cs.foldl revBatchStep acc).1 = revTotal acc.1 + cs.length := by
  induction cs generalizing acc with
  | nil => simp
  | cons c cs ih =>
    rw [List.foldl_cons, ih]
    have hstep : revTotal (revBatchStep acc c).1 = revTotal acc.1 + 1 := by
      show revTotal (revStep acc.1 (processRevertComponent c)) =
        revTotal acc.1 + 1
      unfold revStep revTotal
      cases processRevertComponent c
      all_goals dsimp only
      all_goals omega
    rw [hstep, List.length_cons]
    omega

/-- Claim C8: reconciliation actions are isolated per component.  In
both batch loops, the recorded result of each component is the
per-component function of that component alone — so a middle component
`b` failing deterministically cannot change the results recorded for
the components before or after it — and every component of the batch
is tallied in exactly one counter, the loop continuing past any
failure. -/
theorem C8_batch_isolation (pre post : List UpdComponent)
    (b : UpdComponent) (pre' post' : List RevComponent)
    (b' : RevComponent) :
    (runUpdateBatch (pre ++ b :: post)).2 =
      pre.map processUpdateComponent ++
        processUpdateComponent b :: post.map processUpdateComponent ∧
    updTotal (runUpdateBatch (pre ++ b :: post)).1 =
      pre.length + 1 + post.length ∧
    (runRevertBatch (pre' ++ b' :: post')).2 =
      pre'.map processRevertComponent ++
        processRevertComponent b' :: post'.map processRevertComponent ∧
    revTotal (runRevertBatch (pre' ++ b' :: post')).1 =
      pre'.length + 1 + post'.length := by
  refine ⟨?_, ?_, ?_, ?_⟩
  · rw [runUpdateBatch, updFold_results]
    simp
  · rw [runUpdateBatch, updFold_total]
    simp [updTotal]
    omega
  · rw [runRevertBatch, revFold_results]
    simp
  · rw [runRevertBatch, revFold_total]
    simp [revTotal]
    omega

/-- An existing git component whose chdir, `VERSION` write and git
operations all run, but whose post-creation tag verification query
does not list the recreated tag. -/
def updVerifyFails : UpdComponent :=
  { module_name := "M", path_exists := true, tagNonempty := true,
    cloneCall := none, chdirRaises := false, versionWriteRaises := false,
    isGitRepo := true, gitOpsRaise := false, tagVerifyOk := false,
    chdirBackRaises := false }

/-- Counterexample to claim C9 as stated: when the post-creation tag
verification fails, the raised component-scoped exception is caught by
the inner git `try` handler, which logs a warning and continues — the
component is recorded as UPDATED (a success), not as failed, while the
`VERSION` write indeed stays in place. -/
theorem C9_counterexample :
    updVerifyFails.isGitRepo = true ∧
    updVerifyFails.tagVerifyOk = false ∧
    processUpdateComponent updVerifyFails =
      ⟨.updated, true, true⟩ ∧
    (runUpdateBatch [updVerifyFails]).1 = ⟨1, 0, 0⟩ :=
  ⟨rfl, rfl, rfl, rfl⟩

/-- Claim C9 (amended): in the retag path, after tag creation the
tag's presence is verified by re-querying the repository; for every
component where this verification fails, the raised component-scoped
error is caught by the per-component git handler and surfaced only as
a warning — the component is recorded as updated, not failed — and the
`VERSION` marker-file write already performed is not rolled back: the
written declared tag remains on disk after the failure. -/
theorem C9_verify_failure (c : UpdComponent)
    (h1 : c.path_exists = true) (h2 : c.chdirRaises = false)
    (h3 : c.versionWriteRaises = false) (h4 : c.gitOpsRaise = false)
    (h5 : c.isGitRepo = true) (h6 : c.tagVerifyOk = false)
    (h7 : c.chdirBackRaises = false) :
    processUpdateComponent c = ⟨.updated, true, true⟩ := by
  unfold processUpdateComponent
  rw [h1, h2, h3, h4, h5, h6, h7]
  rfl

/-- Witness for the amended C9 at the concrete failing component. -/
theorem C9_verify_failure_witness :
    updVerifyFails.path_exists = true ∧
    updVerifyFails.tagVerifyOk = false ∧
    processUpdateComponent updVerifyFails = ⟨.updated, true, true⟩ :=
  ⟨rfl, rfl,
    C9_verify_failure updVerifyFails rfl rfl rfl rfl rfl rfl rfl⟩
